import Mathlib

/-!
Shallow embedding of the SPDY/3 framing core of kr/spdy
(spdyframing/session.go, spdyframing/semaphore.go, the ring buffer,
and the HTTP header adapter in server.go / request.go / response.go),
with theorems settling the specification claims.

Go machine integers are modelled as Lean Int with explicit wraparound
(int32 arithmetic via wrap32); Go errors are an explicit inductive type,
a Go nil error being Option.none.  Frame emission is modelled by
returning the list of frames written to the framer.
-/

/-- RST_STREAM status codes used by the session (types from the framing layer). -/
inductive RstStatus where
  | ProtocolError
  | InvalidStream
  | RefusedStream
  | UnsupportedVersion
  | Cancel
  | InternalError
  | FlowControlError
  | StreamInUse
  | StreamAlreadyClosed
deriving DecidableEq, Repr

/-- The error values that appear in the modelled code paths.
Each constructor corresponds to one Go error value. -/
inductive GoErr where
  /-- errClosed = errors.New("closed") in session.go -/
  | errClosed
  /-- errNotReadable -/
  | errNotReadable
  /-- errCannotReply -/
  | errCannotReply
  /-- errNotWritable -/
  | errNotWritable
  /-- errFlowControl -/
  | errFlowControl
  /-- resetError(status) -/
  | resetError (status : RstStatus)
  /-- errors.New("bad increment") in semaphore.go -/
  | badIncrement
  /-- errors.New("closed") in buffer Write -/
  | bufClosed
  /-- errors.New("write on full buffer") -/
  | bufFull
  /-- errors.New("read from empty buffer") -/
  | readEmpty
  /-- errors.New("closing") from Session.add -/
  | closing
  /-- io.EOF -/
  | eof
deriving DecidableEq, Repr

/-- Reduction of an Int to int32 two's-complement range, the semantics of
Go int32 arithmetic results. -/
def wrap32 (x : Int) : Int := (x + 2 ^ 31) % 2 ^ 32 - 2 ^ 31

theorem wrap32_lb (x : Int) : -2 ^ 31 ≤ wrap32 x := by
  unfold wrap32; omega

theorem wrap32_ub (x : Int) : wrap32 x ≤ 2 ^ 31 - 1 := by
  unfold wrap32; omega

theorem wrap32_eq_self {x : Int} (h1 : -2 ^ 31 ≤ x) (h2 : x ≤ 2 ^ 31 - 1) :
    wrap32 x = x := by
  unfold wrap32; omega

theorem wrap32_eq_sub {x : Int} (h1 : 2 ^ 31 ≤ x) (h2 : x ≤ 2 ^ 32 + 2 ^ 31 - 1) :
    wrap32 x = x - 2 ^ 32 := by
  unfold wrap32; omega

/-- State of the closable credit counter in spdyframing/semaphore.go.
The condition variable and mutex carry no observable state of their own. -/
structure Semaphore where
  n : Int
  closed : Bool
  err : Option GoErr
deriving DecidableEq, Repr

/-- semaphore.Dec.  The Wait loop is modelled by returning none exactly when
the Go call would block (value below 1 and not closed); otherwise the result
is the pair returned together with the post-state. -/
def Semaphore.Dec (s : Semaphore) (nReq : Int) :
    Option ((Int × Option GoErr) × Semaphore) :=
  if s.n < 1 ∧ s.closed = false then
    none
  else if s.closed then
    some ((0, s.err), s)
  else
    let g := if s.n < nReq then s.n else nReq
    some ((g, none), { s with n := wrap32 (s.n - g) })

/-- semaphore.Inc: adds the delta (int32 wraparound) before validating it,
and reports "bad increment" when the delta is below 1 or the addition
wrapped from positive to negative. -/
def Semaphore.Inc (s : Semaphore) (delta : Int) : Option GoErr × Semaphore :=
  if delta < 1 ∨ (0 < s.n ∧ wrap32 (s.n + delta) < 0) then
    (some GoErr.badIncrement, { s with n := wrap32 (s.n + delta) })
  else
    (none, { s with n := wrap32 (s.n + delta) })

/-- semaphore.Close: sticky close, the first close reason wins. -/
def Semaphore.Close (s : Semaphore) (e : GoErr) : Semaphore :=
  if s.closed then s else { s with closed := true, err := some e }

/-- C6: semaphore.Dec(nReq) blocks exactly while the counter value is below 1
and the counter is not closed; on a closed counter it returns (0, closeErr)
and leaves the state unchanged; otherwise it grants min(value, nReq) and the
value decreases by exactly the granted amount (stated both with the source's
int32 wraparound and, for in-range inputs, as exact integer subtraction). -/
theorem semaphore_Dec_spec (s : Semaphore) (nReq : Int) :
    (s.Dec nReq = none ↔ (s.n < 1 ∧ s.closed = false)) ∧
    (s.closed = true → s.Dec nReq = some ((0, s.err), s)) ∧
    (s.closed = false → 1 ≤ s.n →
      s.Dec nReq = some ((min s.n nReq, none),
        { s with n := wrap32 (s.n - min s.n nReq) })) ∧
    (s.closed = false → 1 ≤ s.n → s.n ≤ 2 ^ 31 - 1 → 0 ≤ nReq →
      s.Dec nReq = some ((min s.n nReq, none),
        { s with n := s.n - min s.n nReq })) := by
  refine ⟨?_, ?_, ?_, ?_⟩
  · unfold Semaphore.Dec
    constructor
    · intro h
      by_contra hc
      split at h
      · exact hc (by assumption)
      · split at h <;> simp at h
    · intro h
      simp [h]
  · intro hc
    unfold Semaphore.Dec
    have : ¬ (s.n < 1 ∧ s.closed = false) := by simp [hc]
    simp [this, hc]
  · intro hc hn
    unfold Semaphore.Dec
    have h1 : ¬ (s.n < 1 ∧ s.closed = false) := by omega
    simp only [if_neg h1, hc, if_neg (by simp : ¬ (false = true))]
    have hg : (if s.n < nReq then s.n else nReq) = min s.n nReq := by
      rw [min_def]; split <;> split <;> omega
    rw [hg]
    simp only [and_true]
    rw [if_neg (by omega)]
  · intro hc hn hub hreq
    unfold Semaphore.Dec
    have h1 : ¬ (s.n < 1 ∧ s.closed = false) := by omega
    simp only [if_neg h1, hc, if_neg (by simp : ¬ (false = true))]
    have hg : (if s.n < nReq then s.n else nReq) = min s.n nReq := by
      rw [min_def]; split <;> split <;> omega
    rw [hg]
    have hmin1 : 0 ≤ min s.n nReq := le_min (by omega) hreq
    have hmin2 : min s.n nReq ≤ s.n := min_le_left _ _
    rw [wrap32_eq_self (by omega) (by omega)]
    simp only [and_true]
    rw [if_neg (by omega)]

/-- Witness for semaphore_Dec_spec at a concrete counter: value 5, request 3
grants 3 and leaves 2. -/
theorem semaphore_Dec_spec_witness :
    Semaphore.Dec { n := 5, closed := false, err := none } 3 =
      some ((3, none), { n := 2, closed := false, err := none }) := by
  have h := (semaphore_Dec_spec { n := 5, closed := false, err := none } 3).2.2.2
    rfl (by decide) (by decide) (by decide)
  simpa using h

/-- C10: semaphore.Inc is not atomic on failure: the delta is added (with
int32 wraparound) to the counter before validation, so the post-state always
holds the modified value, also when the "bad increment" error is returned
(delta below 1, or a wrap from positive to negative); the value is never
restored. -/
theorem semaphore_Inc_not_atomic (s : Semaphore) (delta : Int) :
    (s.Inc delta).2 = { s with n := wrap32 (s.n + delta) } ∧
    ((s.Inc delta).1 = some GoErr.badIncrement ↔
      (delta < 1 ∨ (0 < s.n ∧ wrap32 (s.n + delta) < 0))) := by
  unfold Semaphore.Inc
  constructor
  · split <;> rfl
  · split
    · simpa using (by assumption)
    · simp only [reduceCtorEq, false_iff]
      assumption

/-- Go copy(l[i:], src) semantics on a fixed-length list: overwrite the
elements of l from position i with the elements of src, copying
min(src.length, l.length - i) elements and leaving the rest of l intact. -/
def overwrite (l : List Nat) (i : Nat) (src : List Nat) : List Nat :=
  l.take i ++ src.take (l.length - i) ++ l.drop (i + min src.length (l.length - i))

theorem overwrite_length {l : List Nat} {i : Nat} (src : List Nat)
    (h : i ≤ l.length) : (overwrite l i src).length = l.length := by
  simp only [overwrite, List.length_append, List.length_take, List.length_drop]
  omega

/-- State of the fixed-size ring buffer (buffer.go): backing array, read and
write positions, sticky closed flag. -/
structure Buffer where
  buf : List Nat
  r : Nat
  w : Nat
  closed : Bool
deriving DecidableEq, Repr

/-- buffer.Len -/
def Buffer.Len (b : Buffer) : Nat := b.w - b.r

/-- The unread portion of the buffer, the bytes of buf[r:w]. -/
def Buffer.unread (b : Buffer) : List Nat := (b.buf.drop b.r).take (b.w - b.r)

/-- The copy step at the end of buffer.Write: n = copy(b.buf[b.w:], p),
b.w += n, and the "write on full buffer" error when n is less than all
of p. -/
def writeFit (b : Buffer) (p : List Nat) : (Nat × Option GoErr) × Buffer :=
  ((min (b.buf.length - b.w) p.length,
     if min (b.buf.length - b.w) p.length < p.length then some GoErr.bufFull else none),
   { b with buf := overwrite b.buf b.w p,
            w := b.w + min (b.buf.length - b.w) p.length })

/-- buffer.Write: fails when closed; slides the unread bytes to offset 0 when
the new data does not fit behind w and r is positive; then copies as many
bytes of p as fit (writeFit). -/
def Buffer.Write (b : Buffer) (p : List Nat) : (Nat × Option GoErr) × Buffer :=
  if b.closed then
    ((0, some GoErr.bufClosed), b)
  else if 0 < b.r ∧ b.buf.length - b.w < p.length then
    writeFit { b with buf := overwrite b.buf 0 ((b.buf.drop b.r).take (b.w - b.r)),
                      w := b.w - b.r, r := 0 } p
  else
    writeFit b p

theorem unread_after_overwrite {l p : List Nat} {r1 w1 : Nat}
    (hr : r1 ≤ w1) (hw : w1 ≤ l.length) :
    ((overwrite l w1 p).drop r1).take (w1 + min p.length (l.length - w1) - r1)
      = (l.drop r1).take (w1 - r1) ++ p.take (min p.length (l.length - w1)) := by
  set n := min p.length (l.length - w1) with hn
  have hlt : (l.take w1).length = w1 := by
    simp [List.length_take]; omega
  have hpt : (p.take (l.length - w1)).length = n := by
    simp [List.length_take, hn, min_comm]
  rw [overwrite, List.append_assoc, List.drop_append_eq_append_drop,
    List.take_append_eq_append_take]
  have h1 : ((l.take w1).drop r1).take (w1 + n - r1) = (l.take w1).drop r1 := by
    apply List.take_of_length_le
    simp [List.length_drop, hlt]
    omega
  have h3 : w1 + n - r1 - ((l.take w1).drop r1).length = n := by
    simp [List.length_drop, hlt]
    omega
  rw [h1, h3]
  have h2 : (l.take w1).drop r1 = (l.drop r1).take (w1 - r1) := by
    rw [List.drop_take]
  rw [h2]
  congr 1
  have h4 : r1 - (l.take w1).length = 0 := by omega
  rw [h4, List.drop_zero, List.take_append_eq_append_take, hpt]
  have h5 : (p.take (l.length - w1)).take n = p.take n := by
    rw [List.take_take]
    congr 1
    omega
  rw [h5]
  simp

theorem unread_preserved_by_slide {l : List Nat} {r w : Nat}
    (hr : r ≤ w) (hw : w ≤ l.length) :
    (overwrite l 0 ((l.drop r).take (w - r))).take (w - r)
      = (l.drop r).take (w - r) := by
  set u := (l.drop r).take (w - r) with hu
  have hul : u.length = w - r := by
    simp [hu, List.length_take, List.length_drop]
    omega
  rw [overwrite]
  simp only [List.take_zero, List.nil_append, Nat.sub_zero, Nat.zero_add]
  rw [List.take_append_eq_append_take]
  have h1 : (u.take l.length).take (w - r) = u := by
    rw [List.take_take]
    apply List.take_of_length_le
    simp [List.length_take]
    omega
  rw [h1]
  have h2 : w - r - (u.take l.length).length = 0 := by
    simp [List.length_take]
    omega
  rw [h2]
  simp

theorem writeFit_spec (b : Buffer) (p : List Nat)
    (hrw : b.r ≤ b.w) (hwc : b.w ≤ b.buf.length) :
    (writeFit b p).1.1 = min p.length (b.buf.length - b.w) ∧
    ((writeFit b p).1.2 = some GoErr.bufFull ↔ (writeFit b p).1.1 < p.length) ∧
    ((writeFit b p).1.2 = none ↔ (writeFit b p).1.1 = p.length) ∧
    (writeFit b p).2.closed = b.closed ∧
    (writeFit b p).2.r = b.r ∧
    (writeFit b p).2.w = b.w + (writeFit b p).1.1 ∧
    (writeFit b p).2.buf.length = b.buf.length ∧
    (writeFit b p).2.unread = b.unread ++ p.take ((writeFit b p).1.1) := by
  refine ⟨?_, ?_, ?_, rfl, rfl, rfl, ?_, ?_⟩
  · dsimp only [writeFit]
    exact min_comm _ _
  · dsimp only [writeFit]
    split
    · exact iff_of_true rfl (by assumption)
    · exact iff_of_false (fun h => Option.noConfusion h) (by assumption)
  · dsimp only [writeFit]
    split
    · exact iff_of_false (fun h => Option.noConfusion h) (by omega)
    · exact iff_of_true rfl (by omega)
  · dsimp only [writeFit]
    exact overwrite_length _ hwc
  · dsimp only [writeFit, Buffer.unread]
    have := @unread_after_overwrite b.buf p b.r b.w hrw hwc
    rw [min_comm (b.buf.length - b.w) p.length]
    exact this

/-- C5: buffer.Write(p) on a closed buffer returns 0 with the "closed" error
and leaves the buffer unchanged; otherwise, when w + p.length exceeds the
capacity and r is positive, the unread bytes are first slid to offset 0 with
the indices reset, then exactly min(p.length, capacity - w) bytes of p
(w taken after the slide) are appended to the unread region, and the
"write on full buffer" error is returned together with the written count
exactly when fewer than p.length bytes fit. -/
theorem buffer_Write_spec (b : Buffer) (p : List Nat)
    (hrw : b.r ≤ b.w) (hwc : b.w ≤ b.buf.length) :
    (b.closed = true → b.Write p = ((0, some GoErr.bufClosed), b)) ∧
    (b.closed = false →
      (b.Write p).1.1
          = min p.length (b.buf.length -
              (if 0 < b.r ∧ b.buf.length - b.w < p.length then b.w - b.r else b.w)) ∧
      ((b.Write p).1.2 = some GoErr.bufFull ↔ (b.Write p).1.1 < p.length) ∧
      ((b.Write p).1.2 = none ↔ (b.Write p).1.1 = p.length) ∧
      (b.Write p).2.closed = false ∧
      (b.Write p).2.r
          = (if 0 < b.r ∧ b.buf.length - b.w < p.length then 0 else b.r) ∧
      (b.Write p).2.w
          = (if 0 < b.r ∧ b.buf.length - b.w < p.length then b.w - b.r else b.w)
              + (b.Write p).1.1 ∧
      (b.Write p).2.buf.length = b.buf.length ∧
      (b.Write p).2.unread = b.unread ++ p.take ((b.Write p).1.1)) := by
  constructor
  · intro hc
    unfold Buffer.Write
    simp [hc]
  · intro hc
    by_cases hs : 0 < b.r ∧ b.buf.length - b.w < p.length
    · have hW : b.Write p = writeFit
          { b with buf := overwrite b.buf 0 ((b.buf.drop b.r).take (b.w - b.r)),
                   w := b.w - b.r, r := 0 } p := by
        unfold Buffer.Write
        rw [if_neg (by simp [hc]), if_pos hs]
      have hbsl : (overwrite b.buf 0 ((b.buf.drop b.r).take (b.w - b.r))).length
          = b.buf.length := overwrite_length _ (Nat.zero_le _)
      have hspec := writeFit_spec
        { b with buf := overwrite b.buf 0 ((b.buf.drop b.r).take (b.w - b.r)),
                 w := b.w - b.r, r := 0 } p
        (by show (0 : Nat) ≤ b.w - b.r; omega)
        (by
          show b.w - b.r ≤ (overwrite b.buf 0 ((b.buf.drop b.r).take (b.w - b.r))).length
          rw [hbsl]; omega)
      have hbsu : Buffer.unread
          { b with buf := overwrite b.buf 0 ((b.buf.drop b.r).take (b.w - b.r)),
                   w := b.w - b.r, r := 0 } = b.unread := by
        unfold Buffer.unread
        dsimp only
        simp only [List.drop_zero, Nat.sub_zero]
        exact unread_preserved_by_slide hrw hwc
      rw [hW]
      simp only [if_pos hs]
      exact ⟨by rw [hspec.1, hbsl], hspec.2.1, hspec.2.2.1, hspec.2.2.2.1.trans hc,
        hspec.2.2.2.2.1, hspec.2.2.2.2.2.1, (hspec.2.2.2.2.2.2.1).trans hbsl,
        by rw [hspec.2.2.2.2.2.2.2, hbsu]⟩
    · have hW : b.Write p = writeFit b p := by
        unfold Buffer.Write
        rw [if_neg (by simp [hc]), if_neg hs]
      have hspec := writeFit_spec b p hrw hwc
      rw [hW]
      simp only [if_neg hs]
      exact ⟨hspec.1, hspec.2.1, hspec.2.2.1, hspec.2.2.2.1.trans hc, hspec.2.2.2.2.1,
        hspec.2.2.2.2.2.1, hspec.2.2.2.2.2.2.1, hspec.2.2.2.2.2.2.2⟩

/-- Witness for buffer_Write_spec: a capacity-4 buffer holding one unread
byte at position 3 slides before accepting three new bytes. -/
theorem buffer_Write_spec_witness :
    ({ buf := [7, 8, 9, 5], r := 3, w := 4, closed := false } : Buffer).closed = false ∧
    (({ buf := [7, 8, 9, 5], r := 3, w := 4, closed := false } : Buffer).Write
        [1, 2, 3]).2.unread = [5, 1, 2, 3] := by
  refine ⟨rfl, ?_⟩
  have h := (buffer_Write_spec { buf := [7, 8, 9, 5], r := 3, w := 4, closed := false }
    [1, 2, 3] (by decide) (by decide)).2 rfl
  rw [h.2.2.2.2.2.2.2]
  decide

/-- Header keys, modelled as character lists so the first-byte test of
copyHeader is direct. -/
abbrev HKey := List Char

/-- An http.Header: a map from key to list of values, modelled as an
association list with distinct keys. -/
abbrev Header := List (HKey × List String)

/-- http.Header.Add: append v to the values of k, creating the entry when
absent. -/
def headerAdd (h : Header) (k : HKey) (v : String) : Header :=
  match h with
  | [] => [(k, [v])]
  | (k1, vv) :: t => if k1 = k then (k1, vv ++ [v]) :: t else (k1, vv) :: headerAdd t k v

/-- Lookup of a header key. -/
def headerLookup (k : HKey) : Header → Option (List String)
  | [] => none
  | (k1, vv) :: t => if k1 = k then some vv else headerLookup k t

/-- The values stored under k, the empty list when the key is absent. -/
def headerValues (k : HKey) (h : Header) : List String := (headerLookup k h).getD []

/-- The inner loop of copyHeader: add every value of vv under k. -/
def addAll (dst : Header) (k : HKey) (vv : List String) : Header :=
  vv.foldl (fun d v => headerAdd d k v) dst

/-- copyHeader (server.go): copy every entry of src into dst, skipping keys
that are empty or start with a colon. -/
def copyHeader (dst : Header) : Header → Header
  | [] => dst
  | (k, vv) :: rest =>
      copyHeader (if 0 < k.length ∧ k.head? ≠ some ':' then addAll dst k vv else dst) rest

/-- SETTINGS entry ids; only InitialWindowSize is recognized by Session.set. -/
inductive SettingsId where
  | SettingsInitialWindowSize
  | otherId (n : Nat)
deriving DecidableEq, Repr

/-- The frames the session writes to the framer. -/
inductive Frame where
  | synStream (streamId : Nat) (fin uni : Bool) (headers : Header)
  | synReply (streamId : Nat) (fin : Bool) (headers : Header)
  | rstStream (streamId : Nat) (status : RstStatus)
  | settings (entries : List (SettingsId × Nat))
  | ping (id : Nat)
  | windowUpdate (streamId : Nat) (delta : Nat)
  | data (streamId : Nat) (payload : List Nat) (fin : Bool)
deriving DecidableEq, Repr

/-- Modelled from the spec: the pipe type (spdyframing/pipe.go is not under
src/). Spec 4.3: a blocking reader over the ring buffer; write copies into
the buffer and signals; close(err) stores the reason error (sticky, the
first error wins, so an EOF already stored is preserved) and closes the
buffer. The condition variable carries no observable state. -/
structure Pipe where
  b : Buffer
  err : Option GoErr
deriving DecidableEq, Repr

/-- Modelled from the spec: pipe.Write forwards to the ring buffer write. -/
def Pipe.Write (p : Pipe) (d : List Nat) : (Nat × Option GoErr) × Pipe :=
  ((p.b.Write d).1, { p with b := (p.b.Write d).2 })

/-- Modelled from the spec: pipe.Close closes the buffer and stores the
first close reason. -/
def Pipe.Close (p : Pipe) (e : GoErr) : Pipe :=
  { b := { p.b with closed := true },
    err := match p.err with
      | none => some e
      | some e0 => some e0 }

/-- The single-slot reply channel of a stream: nil on the accepting side, a
one-slot buffered channel on the initiating side.  full none models a Go
nil http.Header sitting in the slot. -/
inductive ReplyChan where
  | nilChan
  | emptySlot
  | full (h : Option Header)
deriving DecidableEq, Repr

/-- State of a Stream (session.go).  Named SpdyStream because Lean's core
library already defines Stream. -/
structure SpdyStream where
  id : Nat
  pipe : Pipe
  rclosed : Bool
  wready : Bool
  wnd : Semaphore
  wclosed : Bool
  header : Option Header
  reply : ReplyChan
deriving DecidableEq, Repr

/-- State of a Session.  The framer, mutexes and the done channel carry no
modelled state; s.err is what Wait returns after the done channel closes. -/
structure Session where
  rstreams : List (Nat × SpdyStream)
  nextSynId : Nat
  initwnd : Int
  closing : Bool
  lastRecvId : Nat
  isServer : Bool
  err : Option GoErr
deriving DecidableEq, Repr

/-- See SPDY/3 section 2.6.8. -/
def defaultInitWnd : Nat := 64 * 1024

/-- newStream: fresh stream with a defaultInitWnd-sized receive buffer and a
send window initialized from the session's current initwnd. -/
def newStream (sess : Session) : SpdyStream :=
  { id := 0
    pipe := { b := { buf := List.replicate defaultInitWnd 0, r := 0, w := 0, closed := false },
              err := none }
    rclosed := false
    wready := false
    wnd := { n := sess.initwnd, closed := false, err := none }
    wclosed := false
    header := none
    reply := ReplyChan.nilChan }

/-- Stream.rclose: mark the reader closed and close the receive pipe with e.
The sess.maybeRemove call is applied by the session-level handlers, which
own the stream table in this model. -/
def SpdyStream.rclose (st : SpdyStream) (e : GoErr) : SpdyStream :=
  { st with rclosed := true, pipe := st.pipe.Close e }

/-- Stream.wclose: mark the writer closed and close the send window with e. -/
def SpdyStream.wclose (st : SpdyStream) (e : GoErr) : SpdyStream :=
  { st with wclosed := true, wnd := st.wnd.Close e }

/-- Replace the entry for id in the stream table. -/
def updateStream (l : List (Nat × SpdyStream)) (id : Nat) (st : SpdyStream) :
    List (Nat × SpdyStream) :=
  l.map (fun q => if q.1 = id then (id, st) else q)

/-- Session.maybeRemove: drop the table entry for st.id when both directions
are closed and the registered stream is st itself. -/
def Session.maybeRemove (s : Session) (st : SpdyStream) : Session :=
  if st.rclosed ∧ st.wclosed then
    match s.rstreams.lookup st.id with
    | some st1 =>
        if st1 = st then
          { s with rstreams := s.rstreams.filter (fun q => q.1 ≠ st.id) }
        else s
    | none => s
  else s

/-- Stream.handleWindowUpdate: release the delta into the send window; on a
bad increment, emit RST FlowControlError and close the window and the
reader with errFlowControl. -/
def SpdyStream.handleWindowUpdate (st : SpdyStream) (delta : Int) :
    SpdyStream × List Frame :=
  match st.wnd.Inc delta with
  | (some _, wnd2) =>
      (SpdyStream.rclose { st with wnd := wnd2.Close GoErr.errFlowControl }
          GoErr.errFlowControl,
       [Frame.rstStream st.id RstStatus.FlowControlError])
  | (none, wnd2) => ({ st with wnd := wnd2 }, [])

/-- Stream.handleData: RST StreamAlreadyClosed when the reader is closed;
otherwise write into the receive pipe, emitting RST FlowControlError and
closing window and reader with errFlowControl on a pipe write error; on
success with FIN, half-close the reader with io.EOF. -/
def SpdyStream.handleData (st : SpdyStream) (p : List Nat) (fin : Bool) :
    SpdyStream × List Frame :=
  if st.rclosed then
    (st, [Frame.rstStream st.id RstStatus.StreamAlreadyClosed])
  else
    match st.pipe.Write p with
    | ((_, some _), pipe2) =>
        (SpdyStream.rclose
            { st with pipe := pipe2, wnd := st.wnd.Close GoErr.errFlowControl }
            GoErr.errFlowControl,
         [Frame.rstStream st.id RstStatus.FlowControlError])
    | ((_, none), pipe2) =>
        if fin then (SpdyStream.rclose { st with pipe := pipe2 } GoErr.eof, [])
        else ({ st with pipe := pipe2 }, [])

/-- Stream.writeData: emit one DATA frame with as many bytes of p as the send
window grants.  none models a call blocked on the window.  A window closed
with an error triggers Stream.Reset(InternalError): RST_STREAM is emitted
and both directions close with resetError(InternalError). -/
def SpdyStream.writeData (st : SpdyStream) (p : List Nat) :
    Option ((Nat × Option GoErr) × SpdyStream × List Frame) :=
  if st.wclosed then some ((0, some GoErr.errClosed), st, [])
  else if st.wready = false then some ((0, some GoErr.errNotWritable), st, [])
  else
    match st.wnd.Dec (Int.ofNat p.length) with
    | none => none
    | some ((_, some e), wnd2) =>
        some ((0, some e),
          SpdyStream.wclose
            (SpdyStream.rclose { st with wnd := wnd2 }
              (GoErr.resetError RstStatus.InternalError))
            (GoErr.resetError RstStatus.InternalError),
          [Frame.rstStream st.id RstStatus.InternalError])
    | some ((g, none), wnd2) =>
        some ((g.toNat, none), { st with wnd := wnd2 },
          [Frame.data st.id (p.take g.toNat) false])

/-- The loop of Stream.Write: keep calling writeData on the unsent suffix
until all of p is sent or an error occurs.  The fuel only bounds the
iteration count of the model; Stream.Write supplies enough for any
terminating run (every productive iteration sends at least one byte). -/
def writeLoop : Nat → SpdyStream → List Nat → Nat → List Frame →
    Option ((Nat × Option GoErr) × SpdyStream × List Frame)
  | 0, _, _, _, _ => none
  | fuel + 1, st, p, n, acc =>
    if n < p.length then
      match st.writeData (p.drop n) with
      | none => none
      | some ((c, some e), st2, fs) => some ((n + c, some e), st2, acc ++ fs)
      | some ((c, none), st2, fs) => writeLoop fuel st2 p (n + c) (acc ++ fs)
    else
      some ((n, none), st, acc)

/-- Stream.Write. -/
def SpdyStream.Write (st : SpdyStream) (p : List Nat) :
    Option ((Nat × Option GoErr) × SpdyStream × List Frame) :=
  writeLoop (p.length + 1) st p 0 []

/-- Session.set: only InitialWindowSize with value below 2^31 updates
initwnd. -/
def Session.set (s : Session) (id : SettingsId) (val : Nat) : Session :=
  match id with
  | SettingsId.SettingsInitialWindowSize =>
      if val < 2 ^ 31 then { s with initwnd := (val : Int) } else s
  | SettingsId.otherId _ => s

/-- Session.handleSettings: apply Session.set to every entry in order. -/
def Session.handleSettings (s : Session) (entries : List (SettingsId × Nat)) : Session :=
  entries.foldl (fun acc v => acc.set v.1 v.2) s

/-- The fields of an incoming SYN_STREAM the session looks at. -/
structure SynStreamFrame where
  streamId : Nat
  fin : Bool
  uni : Bool
  headers : Header
deriving DecidableEq, Repr

/-- Result of Session.handleSynStream: the session after the frame, the
frames written, the stream handed to the handler goroutine (none when no
handler was launched), and whether Session.add registered the stream. -/
structure SynResult where
  sess : Session
  emitted : List Frame
  launched : Option SpdyStream
  registered : Bool
deriving DecidableEq, Repr

/-- Session.handleSynStream: reject with RST ProtocolError when the id
parity equals the local role or the id does not exceed lastRecvId;
otherwise record the id, build a stream via newStream (send window from the
current initwnd), install the headers, register it (Session.add, which
fails when the session is closing), apply UNIDIRECTIONAL and FIN
half-closes, and launch the handler. -/
def Session.handleSynStream (s : Session) (f : SynStreamFrame) : SynResult :=
  if (s.isServer = (f.streamId % 2 == 0)) ∨ f.streamId ≤ s.lastRecvId then
    { sess := s, emitted := [Frame.rstStream f.streamId RstStatus.ProtocolError],
      launched := none, registered := false }
  else
    let s1 := { s with lastRecvId := f.streamId }
    let st1 := { newStream s1 with id := f.streamId, header := some f.headers }
    if s1.closing then
      { sess := s1, emitted := [], launched := none, registered := false }
    else
      let s2 := { s1 with rstreams := s1.rstreams ++ [(f.streamId, st1)] }
      let st2 := if f.uni then st1.wclose GoErr.errClosed else st1
      let st3 := if f.fin then st2.rclose GoErr.eof else st2
      let s3 := Session.maybeRemove
        { s2 with rstreams := updateStream s2.rstreams f.streamId st3 } st3
      { sess := s3, emitted := [], launched := some st3, registered := true }

/-- Session.handleData: RST InvalidStream for an unknown id, otherwise
dispatch to the stream. -/
def Session.handleData (s : Session) (id : Nat) (p : List Nat) (fin : Bool) :
    Session × List Frame :=
  match s.rstreams.lookup id with
  | none => (s, [Frame.rstStream id RstStatus.InvalidStream])
  | some st =>
      ((Session.maybeRemove
          { s with rstreams := updateStream s.rstreams id (st.handleData p fin).1 }
          (st.handleData p fin).1),
        (st.handleData p fin).2)

/-- Session.handleWindowUpdate: silently ignore unknown ids; otherwise
dispatch int32(DeltaWindowSize) to the stream. -/
def Session.handleWindowUpdate (s : Session) (id : Nat) (deltaWindowSize : Nat) :
    Session × List Frame :=
  match s.rstreams.lookup id with
  | none => (s, [])
  | some st =>
      ((Session.maybeRemove
          { s with rstreams :=
              updateStream s.rstreams id (st.handleWindowUpdate (wrap32 deltaWindowSize)).1 }
          (st.handleWindowUpdate (wrap32 deltaWindowSize)).1),
        (st.handleWindowUpdate (wrap32 deltaWindowSize)).2)

/-- The per-stream work of the deferred teardown in Session.read: rclose with
errClosed, close the send window with errClosed, and push a nil header into
the reply slot when it is empty (the non-blocking send). -/
def teardownStream (st : SpdyStream) : SpdyStream :=
  let st1 := SpdyStream.rclose st GoErr.errClosed
  let st2 := { st1 with wnd := st1.wnd.Close GoErr.errClosed }
  { st2 with reply := match st2.reply with
      | ReplyChan.emptySlot => ReplyChan.full none
      | r => r }

/-- The teardown of Session.read once ReadFrame returns the error e: set
closing, apply teardownStream to every live stream (their rclose calls
maybeRemove, so fully-closed streams leave the table), record e in s.err and
close the done channel. -/
def Session.teardown (s : Session) (e : GoErr) : Session :=
  let fs := s.rstreams.map (fun q => (q.1, teardownStream q.2))
  { s with closing := true,
           rstreams := fs.filter (fun q => ¬ (q.2.rclosed ∧ q.2.wclosed)),
           err := some e }

/-- Session.Wait: after the done channel closes, return s.err as stored by
the read loop. -/
def Session.Wait (s : Session) : Option GoErr := s.err

/-- C9: Stream.Write with an empty byte slice returns (0, nil) immediately in
any stream state: the loop condition fails before writeData runs, so no
frame is emitted and the stream state, its send window included, is
untouched. -/
theorem stream_Write_empty (st : SpdyStream) :
    st.Write [] = some ((0, none), st, []) := rfl

theorem set_rstreams (s : Session) (id : SettingsId) (val : Nat) :
    (s.set id val).rstreams = s.rstreams := by
  cases id with
  | SettingsInitialWindowSize =>
      dsimp only [Session.set]
      by_cases h : val < 2 ^ 31
      · rw [if_pos h]
      · rw [if_neg h]
  | otherId m => rfl

theorem handleSettings_rstreams (entries : List (SettingsId × Nat)) (s : Session) :
    (s.handleSettings entries).rstreams = s.rstreams := by
  induction entries generalizing s with
  | nil => rfl
  | cons e rest ih =>
      unfold Session.handleSettings
      simp only [List.foldl_cons]
      have h := ih (s.set e.1 e.2)
      unfold Session.handleSettings at h
      rw [h, set_rstreams]

/-- C7: a SETTINGS entry with id InitialWindowSize and value below 2^31 sets
the session's initwnd to that value; entries with other ids, or with a value
not below 2^31, leave the session unchanged; handleSettings never touches the
stream table, so existing streams keep their send windows; and newStream
initializes its send window from the session's current initwnd, so only
streams created afterwards observe the new value. -/
theorem session_settings_initial_window (s : Session)
    (entries : List (SettingsId × Nat)) (v n : Nat) :
    s.set SettingsId.SettingsInitialWindowSize v
        = { s with initwnd := if v < 2 ^ 31 then (v : Int) else s.initwnd } ∧
    s.set (SettingsId.otherId n) v = s ∧
    (s.handleSettings entries).rstreams = s.rstreams ∧
    (newStream s).wnd.n = s.initwnd := by
  refine ⟨?_, rfl, handleSettings_rstreams entries s, rfl⟩
  dsimp only [Session.set]
  by_cases h : v < 2 ^ 31
  · rw [if_pos h, if_pos h]
  · rw [if_neg h, if_neg h]

theorem handleWindowUpdate_err_frames (st : SpdyStream) (delta : Int)
    (hcond : delta < 1 ∨ (0 < st.wnd.n ∧ wrap32 (st.wnd.n + delta) < 0)) :
    (st.handleWindowUpdate delta).2
        = [Frame.rstStream st.id RstStatus.FlowControlError] := by
  unfold SpdyStream.handleWindowUpdate Semaphore.Inc
  rw [if_pos hcond]

theorem handleWindowUpdate_err_state (st : SpdyStream) (delta : Int)
    (hwc : st.wnd.closed = false) (hpe : st.pipe.err = none)
    (hcond : delta < 1 ∨ (0 < st.wnd.n ∧ wrap32 (st.wnd.n + delta) < 0)) :
    (st.handleWindowUpdate delta).1.wnd.closed = true ∧
    (st.handleWindowUpdate delta).1.wnd.err = some GoErr.errFlowControl ∧
    (st.handleWindowUpdate delta).1.rclosed = true ∧
    (st.handleWindowUpdate delta).1.pipe.err = some GoErr.errFlowControl := by
  unfold SpdyStream.handleWindowUpdate Semaphore.Inc
  rw [if_pos hcond]
  refine ⟨?_, ?_, rfl, ?_⟩
  · simp [SpdyStream.rclose, Semaphore.Close, hwc]
  · simp [SpdyStream.rclose, Semaphore.Close, hwc]
  · simp [SpdyStream.rclose, Pipe.Close, hpe]

theorem handleWindowUpdate_ok (st : SpdyStream) (delta : Int)
    (hcond : ¬ (delta < 1 ∨ (0 < st.wnd.n ∧ wrap32 (st.wnd.n + delta) < 0))) :
    (st.handleWindowUpdate delta).1.wnd.n = wrap32 (st.wnd.n + delta) ∧
    (st.handleWindowUpdate delta).2 = [] := by
  unfold SpdyStream.handleWindowUpdate Semaphore.Inc
  rw [if_neg hcond]
  exact ⟨rfl, rfl⟩

/-- C2: a WINDOW_UPDATE whose unsigned delta would carry the stream's send
window past 2^31 - 1 makes Stream.handleWindowUpdate emit RST_STREAM with
FlowControlError on that stream and close its send window and reader with
errFlowControl; and whenever the update is accepted (no RST emitted) the new
send-window value is exactly the old value plus the delta and never exceeds
2^31 - 1. -/
theorem stream_window_update_overflow (st : SpdyStream) (du : Nat)
    (hdu : du < 2 ^ 32) (h0 : 0 ≤ st.wnd.n) (h1 : st.wnd.n ≤ 2 ^ 31 - 1)
    (hwc : st.wnd.closed = false) (hpe : st.pipe.err = none) :
    (2 ^ 31 - 1 < st.wnd.n + (du : Int) →
      (st.handleWindowUpdate (wrap32 du)).2
          = [Frame.rstStream st.id RstStatus.FlowControlError] ∧
      (st.handleWindowUpdate (wrap32 du)).1.wnd.closed = true ∧
      (st.handleWindowUpdate (wrap32 du)).1.wnd.err = some GoErr.errFlowControl ∧
      (st.handleWindowUpdate (wrap32 du)).1.rclosed = true ∧
      (st.handleWindowUpdate (wrap32 du)).1.pipe.err = some GoErr.errFlowControl) ∧
    ((st.handleWindowUpdate (wrap32 du)).2 = [] →
      (st.handleWindowUpdate (wrap32 du)).1.wnd.n = st.wnd.n + (du : Int) ∧
      (st.handleWindowUpdate (wrap32 du)).1.wnd.n ≤ 2 ^ 31 - 1) := by
  have hducast : (0 : Int) ≤ (du : Int) := Int.ofNat_nonneg du
  have hducast2 : (du : Int) < 2 ^ 32 := by exact_mod_cast hdu
  constructor
  · intro hover
    have hcond : wrap32 du < 1 ∨ (0 < st.wnd.n ∧ wrap32 (st.wnd.n + wrap32 du) < 0) := by
      by_cases hbig : (2 : Int) ^ 31 ≤ (du : Int)
      · left
        rw [wrap32_eq_sub hbig (by omega)]
        omega
      · right
        push_neg at hbig
        have hdu2 : wrap32 du = (du : Int) := wrap32_eq_self (by omega) (by omega)
        refine ⟨by omega, ?_⟩
        rw [hdu2, wrap32_eq_sub (by omega) (by omega)]
        omega
    have hstate := handleWindowUpdate_err_state st (wrap32 du) hwc hpe hcond
    exact ⟨handleWindowUpdate_err_frames st (wrap32 du) hcond,
      hstate.1, hstate.2.1, hstate.2.2.1, hstate.2.2.2⟩
  · intro hacc
    by_cases hcond : wrap32 du < 1 ∨ (0 < st.wnd.n ∧ wrap32 (st.wnd.n + wrap32 du) < 0)
    · exfalso
      rw [handleWindowUpdate_err_frames st (wrap32 du) hcond] at hacc
      exact List.noConfusion hacc
    · have hok := handleWindowUpdate_ok st (wrap32 du) hcond
      have hcond2 := hcond
      push_neg at hcond2
      obtain ⟨hd1, hd2⟩ := hcond2
      have hsmall : (du : Int) ≤ 2 ^ 31 - 1 := by
        by_contra hbig
        push_neg at hbig
        rw [wrap32_eq_sub (by omega) (by omega)] at hd1
        omega
      have hdu2 : wrap32 du = (du : Int) := wrap32_eq_self (by omega) (by omega)
      have hsum : wrap32 (st.wnd.n + (du : Int)) = st.wnd.n + (du : Int) := by
        by_cases hn : 0 < st.wnd.n
        · have hge := hd2 hn
          rw [hdu2] at hge
          by_cases hle : st.wnd.n + (du : Int) ≤ 2 ^ 31 - 1
          · exact wrap32_eq_self (by omega) hle
          · exfalso
            rw [wrap32_eq_sub (by omega) (by omega)] at hge
            omega
        · have hn0 : st.wnd.n = 0 := by omega
          rw [hn0, zero_add]
          exact wrap32_eq_self (by omega) (by omega)
      have heq : (st.handleWindowUpdate (wrap32 du)).1.wnd.n = st.wnd.n + (du : Int) := by
        rw [hok.1, hdu2, hsum]
      refine ⟨heq, ?_⟩
      rw [heq, ← hsum]
      exact wrap32_ub _

/-- Witness for stream_window_update_overflow: a stream whose window already
holds 2^31 - 1 receives WINDOW_UPDATE with delta 1 and is reset with
FlowControlError. -/
theorem stream_window_update_overflow_witness :
    (SpdyStream.handleWindowUpdate
      { id := 1,
        pipe := { b := { buf := [], r := 0, w := 0, closed := false }, err := none },
        rclosed := false, wready := true,
        wnd := { n := 2147483647, closed := false, err := none },
        wclosed := false, header := none, reply := ReplyChan.nilChan }
      (wrap32 1)).2 = [Frame.rstStream 1 RstStatus.FlowControlError] := by
  have h := (stream_window_update_overflow
    { id := 1,
      pipe := { b := { buf := [], r := 0, w := 0, closed := false }, err := none },
      rclosed := false, wready := true,
      wnd := { n := 2147483647, closed := false, err := none },
      wclosed := false, header := none, reply := ReplyChan.nilChan }
    1 (by decide) (by decide) (by decide) rfl rfl).1 (by decide)
  exact h.1

theorem handleData_rclosed (st : SpdyStream) (p : List Nat) (fin : Bool)
    (h : st.rclosed = true) :
    st.handleData p fin = (st, [Frame.rstStream st.id RstStatus.StreamAlreadyClosed]) := by
  unfold SpdyStream.handleData
  rw [if_pos h]

theorem handleData_overflow (st : SpdyStream) (p : List Nat) (fin : Bool)
    (n0 : Nat) (e0 : GoErr) (pipe2 : Pipe)
    (hr : st.rclosed = false)
    (he : st.pipe.Write p = ((n0, some e0), pipe2))
    (hwc : st.wnd.closed = false) (hp2 : pipe2.err = none) :
    (st.handleData p fin).2 = [Frame.rstStream st.id RstStatus.FlowControlError] ∧
    (st.handleData p fin).1.wnd.closed = true ∧
    (st.handleData p fin).1.wnd.err = some GoErr.errFlowControl ∧
    (st.handleData p fin).1.rclosed = true ∧
    (st.handleData p fin).1.pipe.err = some GoErr.errFlowControl := by
  unfold SpdyStream.handleData
  rw [if_neg (by simp [hr]), he]
  refine ⟨rfl, ?_, ?_, rfl, ?_⟩
  · simp [SpdyStream.rclose, Semaphore.Close, hwc]
  · simp [SpdyStream.rclose, Semaphore.Close, hwc]
  · simp [SpdyStream.rclose, Pipe.Close, hp2]

theorem handleData_ok (st : SpdyStream) (p : List Nat) (fin : Bool)
    (n0 : Nat) (pipe2 : Pipe)
    (hr : st.rclosed = false)
    (he : st.pipe.Write p = ((n0, none), pipe2)) :
    st.handleData p fin
      = (if fin then (SpdyStream.rclose { st with pipe := pipe2 } GoErr.eof, [])
         else ({ st with pipe := pipe2 }, [])) := by
  unfold SpdyStream.handleData
  rw [if_neg (by simp [hr]), he]

/-- C4: for an incoming DATA frame, an id absent from the stream table draws
RST InvalidStream; a stream whose reader is closed draws RST
StreamAlreadyClosed; a receive-pipe write error (overflow) closes the send
window and reader with errFlowControl and draws RST FlowControlError; and on
a successful pipe write a FIN half-closes the reader with io.EOF while
without FIN only the pipe data changes and no frame is emitted. -/
theorem session_handleData_spec (s : Session) (id : Nat) (p : List Nat)
    (fin : Bool) (st : SpdyStream) :
    (s.rstreams.lookup id = none →
      s.handleData id p fin = (s, [Frame.rstStream id RstStatus.InvalidStream])) ∧
    (st.rclosed = true →
      st.handleData p fin = (st, [Frame.rstStream st.id RstStatus.StreamAlreadyClosed])) ∧
    (st.rclosed = false → (st.pipe.Write p).1.2 ≠ none →
      st.wnd.closed = false → st.pipe.err = none →
      (st.handleData p fin).2 = [Frame.rstStream st.id RstStatus.FlowControlError] ∧
      (st.handleData p fin).1.wnd.closed = true ∧
      (st.handleData p fin).1.wnd.err = some GoErr.errFlowControl ∧
      (st.handleData p fin).1.rclosed = true ∧
      (st.handleData p fin).1.pipe.err = some GoErr.errFlowControl) ∧
    (st.rclosed = false → (st.pipe.Write p).1.2 = none → st.pipe.err = none →
      (st.handleData p fin).2 = [] ∧
      (fin = true → (st.handleData p fin).1.rclosed = true ∧
        (st.handleData p fin).1.pipe.err = some GoErr.eof) ∧
      (fin = false → (st.handleData p fin).1 = { st with pipe := (st.pipe.Write p).2 })) := by
  have hperr : (st.pipe.Write p).2.err = st.pipe.err := rfl
  refine ⟨?_, handleData_rclosed st p fin, ?_, ?_⟩
  · intro h
    unfold Session.handleData
    rw [h]
  · intro hr hne hwc hpe
    rcases he : st.pipe.Write p with ⟨⟨n0, e0⟩, pipe2⟩
    rw [he] at hne hperr
    cases e0 with
    | none => exact absurd rfl hne
    | some err0 =>
        exact handleData_overflow st p fin n0 err0 pipe2 hr he hwc (hperr.trans hpe)
  · intro hr hok hpe
    rcases he : st.pipe.Write p with ⟨⟨n0, e0⟩, pipe2⟩
    rw [he] at hok hperr
    cases e0 with
    | some err0 => exact absurd hok (by simp)
    | none =>
        have hrw := handleData_ok st p fin n0 pipe2 hr he
        rw [hrw]
        cases fin with
        | true =>
            refine ⟨rfl, ?_, ?_⟩
            · intro h
              refine ⟨rfl, ?_⟩
              have hp2 : pipe2.err = none := by simpa using hperr.trans hpe
              simp [SpdyStream.rclose, Pipe.Close, hp2]
            · intro h
              exact absurd h (by simp)
        | false =>
            refine ⟨rfl, ?_, fun h => rfl⟩
            intro h
            exact absurd h (by simp)

/-- Witness for session_handleData_spec: a two-byte DATA payload overflows a
one-byte receive buffer and the stream is reset with FlowControlError. -/
theorem session_handleData_spec_witness :
    (SpdyStream.handleData
      { id := 9,
        pipe := { b := { buf := [0], r := 0, w := 0, closed := false }, err := none },
        rclosed := false, wready := true,
        wnd := { n := 7, closed := false, err := none },
        wclosed := false, header := none, reply := ReplyChan.nilChan }
      [4, 5] false).2 = [Frame.rstStream 9 RstStatus.FlowControlError] := by
  have h := (session_handleData_spec
    { rstreams := [], nextSynId := 1, initwnd := 8, closing := false,
      lastRecvId := 0, isServer := false, err := none } 9 [4, 5] false
    { id := 9,
      pipe := { b := { buf := [0], r := 0, w := 0, closed := false }, err := none },
      rclosed := false, wready := true,
      wnd := { n := 7, closed := false, err := none },
      wclosed := false, header := none, reply := ReplyChan.nilChan }).2.2.1
    rfl (by decide) rfl rfl
  exact h.1

theorem maybeRemove_fields (s : Session) (st : SpdyStream) :
    (s.maybeRemove st).lastRecvId = s.lastRecvId ∧
    (s.maybeRemove st).closing = s.closing ∧
    (s.maybeRemove st).initwnd = s.initwnd ∧
    (s.maybeRemove st).isServer = s.isServer ∧
    (s.maybeRemove st).err = s.err := by
  unfold Session.maybeRemove
  split
  · split
    · split
      · exact ⟨rfl, rfl, rfl, rfl, rfl⟩
      · exact ⟨rfl, rfl, rfl, rfl, rfl⟩
    · exact ⟨rfl, rfl, rfl, rfl, rfl⟩
  · exact ⟨rfl, rfl, rfl, rfl, rfl⟩

/-- C3: an incoming SYN_STREAM whose id parity matches the local role or whose
id does not exceed lastReceivedId draws RST ProtocolError and creates no
stream; otherwise (when the session is not closing) the session records the
id in lastReceivedId, registers a stream whose send window is the session's
current initialWindow, installs the headers, half-closes the writer on
UNIDIRECTIONAL and the reader with io.EOF on FIN, emits nothing, and
launches the handler on that stream. -/
theorem session_handleSynStream_spec (s : Session) (f : SynStreamFrame) :
    ((s.isServer = (f.streamId % 2 == 0)) ∨ f.streamId ≤ s.lastRecvId →
      s.handleSynStream f =
        { sess := s, emitted := [Frame.rstStream f.streamId RstStatus.ProtocolError],
          launched := none, registered := false }) ∧
    (¬ ((s.isServer = (f.streamId % 2 == 0)) ∨ f.streamId ≤ s.lastRecvId) →
      s.closing = false →
      (s.handleSynStream f).sess.lastRecvId = f.streamId ∧
      (s.handleSynStream f).registered = true ∧
      (s.handleSynStream f).emitted = [] ∧
      ∃ st, (s.handleSynStream f).launched = some st ∧
        st.id = f.streamId ∧
        st.header = some f.headers ∧
        st.wnd.n = s.initwnd ∧
        st.wready = false ∧
        st.wclosed = f.uni ∧
        st.rclosed = f.fin ∧
        (f.fin = true → st.pipe.err = some GoErr.eof)) := by
  constructor
  · intro h
    unfold Session.handleSynStream
    rw [if_pos h]
  · intro hrej hclosing
    unfold Session.handleSynStream
    rw [if_neg hrej, if_neg (by simp [hclosing])]
    refine ⟨(maybeRemove_fields _ _).1, rfl, rfl, ?_⟩
    refine ⟨_, rfl, ?_⟩
    cases hu : f.uni <;> cases hf : f.fin <;>
      simp [hu, hf, SpdyStream.wclose, SpdyStream.rclose, Semaphore.Close,
        Pipe.Close, newStream]

/-- Witness for session_handleSynStream_spec: a server session accepts
odd-id 1 from a client and launches the handler on the registered stream. -/
theorem session_handleSynStream_spec_witness :
    (Session.handleSynStream
      { rstreams := [], nextSynId := 2, initwnd := 10, closing := false,
        lastRecvId := 0, isServer := true, err := none }
      { streamId := 1, fin := false, uni := false, headers := [] }).registered
      = true := by
  have h := (session_handleSynStream_spec
    { rstreams := [], nextSynId := 2, initwnd := 10, closing := false,
      lastRecvId := 0, isServer := true, err := none }
    { streamId := 1, fin := false, uni := false, headers := [] }).2
    (by decide) rfl
  exact h.2.1

/-- Counterexample for C1 as stated: on a framer io.EOF the read loop stores
io.EOF and Wait returns it unchanged; it is not normalized to nil
(Option.none). -/
theorem session_wait_eof_counterexample :
    Session.Wait (Session.teardown
      { rstreams := [], nextSynId := 1, initwnd := 65536, closing := false,
        lastRecvId := 0, isServer := false, err := none } GoErr.eof) ≠ none := by
  decide

/-- C1 (amended): when the framer read loop ends with error e, teardown marks
the session closing and, for every live stream, half-closes the reader and
closes the receive pipe and send window with errClosed (first close reason
wins) and pushes a nil header into an empty reply slot; Wait then returns e
unchanged, io.EOF included (the code does not normalize io.EOF to nil). -/
theorem session_teardown_spec (s : Session) (e : GoErr) :
    (s.teardown e).Wait = some e ∧
    (s.teardown e).closing = true ∧
    (∀ q, q ∈ s.rstreams →
      (teardownStream q.2).rclosed = true ∧
      (q.2.pipe.err = none → (teardownStream q.2).pipe.err = some GoErr.errClosed) ∧
      (teardownStream q.2).pipe.b.closed = true ∧
      (q.2.wnd.closed = false → (teardownStream q.2).wnd.closed = true ∧
        (teardownStream q.2).wnd.err = some GoErr.errClosed) ∧
      (q.2.reply = ReplyChan.emptySlot →
        (teardownStream q.2).reply = ReplyChan.full none)) := by
  refine ⟨rfl, rfl, ?_⟩
  intro q hq
  refine ⟨rfl, ?_, rfl, ?_, ?_⟩
  · intro hpe
    unfold teardownStream SpdyStream.rclose Pipe.Close
    simp only [hpe]
  · intro hwc
    unfold teardownStream SpdyStream.rclose Semaphore.Close
    constructor
    · simp [hwc]
    · simp [hwc]
  · intro hre
    unfold teardownStream
    have h2 : (SpdyStream.rclose q.2 GoErr.errClosed).reply = ReplyChan.emptySlot := hre
    dsimp only
    rw [h2]

/-- Witness for session_teardown_spec: tearing down a session holding one
fresh stream closes that stream's pipe with errClosed. -/
theorem session_teardown_spec_witness :
    (teardownStream
      { id := 1,
        pipe := { b := { buf := [0], r := 0, w := 0, closed := false }, err := none },
        rclosed := false, wready := false,
        wnd := { n := 3, closed := false, err := none },
        wclosed := false, header := none,
        reply := ReplyChan.emptySlot }).pipe.err = some GoErr.errClosed := by
  have h := (session_teardown_spec
    { rstreams := [(1,
        { id := 1,
          pipe := { b := { buf := [0], r := 0, w := 0, closed := false }, err := none },
          rclosed := false, wready := false,
          wnd := { n := 3, closed := false, err := none },
          wclosed := false, header := none,
          reply := ReplyChan.emptySlot })],
      nextSynId := 2, initwnd := 8, closing := false,
      lastRecvId := 0, isServer := true, err := none } GoErr.eof).2.2
    (1,
      { id := 1,
        pipe := { b := { buf := [0], r := 0, w := 0, closed := false }, err := none },
        rclosed := false, wready := false,
        wnd := { n := 3, closed := false, err := none },
        wclosed := false, header := none,
        reply := ReplyChan.emptySlot })
    (List.mem_singleton.mpr rfl)
  exact h.2.1 rfl

theorem headerValues_add_eq (h : Header) (k : HKey) (v : String) :
    headerValues k (headerAdd h k v) = headerValues k h ++ [v] := by
  induction h with
  | nil => simp [headerAdd, headerValues, headerLookup]
  | cons e t ih =>
      obtain ⟨k1, vv⟩ := e
      by_cases hk : k1 = k
      · subst hk
        simp [headerAdd, headerValues, headerLookup]
      · simp [headerAdd, headerValues, headerLookup, hk] at ih ⊢
        exact ih

theorem headerLookup_add_ne (h : Header) (k k1 : HKey) (v : String)
    (hne : k1 ≠ k) :
    headerLookup k (headerAdd h k1 v) = headerLookup k h := by
  induction h with
  | nil => simp [headerAdd, headerLookup, hne]
  | cons e t ih =>
      obtain ⟨k2, vv⟩ := e
      by_cases hk : k2 = k1
      · subst hk
        simp [headerAdd, headerLookup, hne]
      · by_cases hk2 : k2 = k
        · subst hk2
          simp [headerAdd, hk, headerLookup]
        · simp [headerAdd, hk, headerLookup, hk2]
          exact ih

theorem addAll_lookup_ne (vv : List String) (dst : Header) (k k1 : HKey)
    (hne : k1 ≠ k) :
    headerLookup k (addAll dst k1 vv) = headerLookup k dst := by
  induction vv generalizing dst with
  | nil => rfl
  | cons v vs ih =>
      show headerLookup k (addAll (headerAdd dst k1 v) k1 vs) = _
      rw [ih (headerAdd dst k1 v), headerLookup_add_ne dst k k1 v hne]

theorem addAll_values_eq (vv : List String) (dst : Header) (k : HKey) :
    headerValues k (addAll dst k vv) = headerValues k dst ++ vv := by
  induction vv generalizing dst with
  | nil => simp [addAll]
  | cons v vs ih =>
      show headerValues k (addAll (headerAdd dst k v) k vs) = _
      rw [ih (headerAdd dst k v), headerValues_add_eq]
      simp

theorem addAll_values_ne (vv : List String) (dst : Header) (k k1 : HKey)
    (hne : k1 ≠ k) :
    headerValues k (addAll dst k1 vv) = headerValues k dst := by
  unfold headerValues
  rw [addAll_lookup_ne vv dst k k1 hne]

theorem copyHeader_values_not_mem (src : Header) :
    ∀ dst (k : HKey), k ∉ src.map Prod.fst →
      headerValues k (copyHeader dst src) = headerValues k dst := by
  induction src with
  | nil => intro dst k _; rfl
  | cons e rest ih =>
      intro dst k h
      obtain ⟨k1, vv⟩ := e
      simp only [List.map_cons, List.mem_cons, not_or] at h
      show headerValues k
          (copyHeader (if 0 < k1.length ∧ k1.head? ≠ some ':' then addAll dst k1 vv else dst)
            rest) = _
      rw [ih _ _ h.2]
      by_cases hc : 0 < k1.length ∧ k1.head? ≠ some ':'
      · rw [if_pos hc, addAll_values_ne vv dst k k1 (Ne.symm h.1)]
      · rw [if_neg hc]

theorem copyHeader_lookup_bad (src : Header) :
    ∀ dst (k : HKey), (k = [] ∨ k.head? = some ':') →
      headerLookup k (copyHeader dst src) = headerLookup k dst := by
  induction src with
  | nil => intro dst k _; rfl
  | cons e rest ih =>
      intro dst k hbad
      obtain ⟨k1, vv⟩ := e
      show headerLookup k
          (copyHeader (if 0 < k1.length ∧ k1.head? ≠ some ':' then addAll dst k1 vv else dst)
            rest) = _
      rw [ih _ _ hbad]
      by_cases hc : 0 < k1.length ∧ k1.head? ≠ some ':'
      · rw [if_pos hc, addAll_lookup_ne vv dst k k1 ?hne]
        case hne =>
          intro he
          subst he
          rcases hbad with hb | hb
          · rw [hb] at hc
            exact absurd hc.1 (by simp)
          · exact absurd hb hc.2
      · rw [if_neg hc]

theorem copyHeader_values_good (src : Header) :
    ∀ dst (k : HKey), (src.map Prod.fst).Nodup → k ≠ [] → k.head? ≠ some ':' →
      headerValues k (copyHeader dst src)
        = headerValues k dst ++ headerValues k src := by
  induction src with
  | nil => intro dst k _ _ _; simp [copyHeader, headerValues, headerLookup]
  | cons e rest ih =>
      intro dst k hnd hk1 hk2
      obtain ⟨k1, vv⟩ := e
      simp only [List.map_cons, List.nodup_cons] at hnd
      by_cases he : k1 = k
      · subst he
        have hc : 0 < k1.length ∧ k1.head? ≠ some ':' :=
          ⟨List.length_pos.mpr hk1, hk2⟩
        show headerValues k1
            (copyHeader (if 0 < k1.length ∧ k1.head? ≠ some ':' then addAll dst k1 vv else dst)
              rest) = _
        rw [if_pos hc, copyHeader_values_not_mem rest _ _ hnd.1, addAll_values_eq]
        simp [headerValues, headerLookup]
      · show headerValues k
            (copyHeader (if 0 < k1.length ∧ k1.head? ≠ some ':' then addAll dst k1 vv else dst)
              rest) = _
        rw [ih _ _ hnd.2 hk1 hk2]
        have hval : headerValues k ((k1, vv) :: rest) = headerValues k rest := by
          simp [headerValues, headerLookup, he]
        rw [hval]
        by_cases hc : 0 < k1.length ∧ k1.head? ≠ some ':'
        · rw [if_pos hc, addAll_values_ne vv dst k k1 he]
        · rw [if_neg hc]

/-- Counterexample for C8 as stated: copyHeader drops the empty key as well,
because the source tests len(k) > 0 before copying; the empty key does not
begin with a colon, yet its values do not survive the copy. -/
theorem copyHeader_empty_key_counterexample :
    ¬ (([] : HKey).head? = some ':') ∧
    headerValues [] ([(([] : HKey), ["v"])] : Header) = ["v"] ∧
    headerValues [] (copyHeader [] [(([] : HKey), ["v"])]) = [] :=
  ⟨by decide, rfl, rfl⟩

/-- C8 (amended): the header map built by copyHeader from an empty
destination (as ReadRequest and ReadResponse build the HTTP-visible map)
contains no colon-prefixed key and no empty key, and every nonempty key that
does not start with a colon keeps all of its values. -/
theorem copyHeader_strips_meta_keys (src : Header) (k : HKey)
    (hnd : (src.map Prod.fst).Nodup) :
    ((k = [] ∨ k.head? = some ':') → headerLookup k (copyHeader [] src) = none) ∧
    (k ≠ [] → k.head? ≠ some ':' →
      headerValues k (copyHeader [] src) = headerValues k src) := by
  constructor
  · intro hbad
    rw [copyHeader_lookup_bad src [] k hbad]
    rfl
  · intro h1 h2
    rw [copyHeader_values_good src [] k hnd h1 h2]
    rfl

/-- Witness for copyHeader_strips_meta_keys: the key "a" keeps its two values
while ":x" is stripped. -/
theorem copyHeader_strips_meta_keys_witness :
    headerValues [Char.ofNat 97]
      (copyHeader []
        [(([Char.ofNat 97] : HKey), ["1", "2"]), (([':', 'x'] : HKey), ["m"])])
      = ["1", "2"] := by
  have h := (copyHeader_strips_meta_keys
    [(([Char.ofNat 97] : HKey), ["1", "2"]), (([':', 'x'] : HKey), ["m"])]
    [Char.ofNat 97] (by decide)).2 (by decide) (by decide)
  rw [h]
  rfl
